import Mathlib

/-!
Shallow embedding of the openbook-langgraph-rag-agent core: the conversation
state, message reducer, router, agent node, retrieval tool, tool step and the
agent loop, translated from the TypeScript source
(src/state/schemas.ts, src/nodes (config/index.ts part 2),
src/tools/kb-retrieval.ts (instrumentation/arize.ts part 3),
src/agents/rag-agent.ts, src/utils, src/server.ts, src/config/index.ts),
together with theorems settling the specification claims.
-/

namespace RagAgent

/-! ## Data model: messages (LangChain message shapes used by the source) -/

/-- Message roles used by the source (`system`, `human`, `ai`, `tool`). -/
inductive Role where
  | system
  | human
  | ai
  | tool
deriving DecidableEq, Repr

/-- A tool call emitted by the model: `{id, name, arguments}` where the
arguments of the single registered tool are `query` and optional `topK`
(tool schema in src/tools/kb-retrieval.ts). -/
structure ToolCall where
  id : String
  name : String
  query : String
  topK : Option Nat
deriving DecidableEq, Repr

/-- One element of an array-shaped message content.  The source inspects each
block with `typeof block === "object" && block !== null && "type" in block &&
block.type === "text"`; we collapse the JS value space accordingly:
a text block carrying a `text` field, an object block with some other `type`
tag, or anything else (non-object, or object without a `type` field). -/
inductive ContentBlock where
  | text (s : String)
  | typed (ty : String)
  | untyped
deriving DecidableEq, Repr

/-- Message content: a plain string, an array of blocks, or any other JS
shape (src/utils getMessageText distinguishes exactly these three). -/
inductive Content where
  | str (s : String)
  | blocks (bs : List ContentBlock)
  | other
deriving DecidableEq, Repr

/-- A conversation message.  In the JS data model only `ai` messages carry a
`tool_calls` array and only `tool` messages carry a `tool_call_id`; absent
fields are modelled by `[]` / `none`. -/
structure Message where
  role : Role
  content : Content
  tool_calls : List ToolCall := []
  tool_call_id : Option String := none
deriving DecidableEq, Repr

/-- src/utils createHumanMessage. -/
def createHumanMessage (content : String) : Message :=
  { role := .human, content := .str content }

/-- src/utils createAIMessage. -/
def createAIMessage (content : String) : Message :=
  { role := .ai, content := .str content }

/-- Filter predicate of src/utils getMessageText:
`typeof block === "object" && block !== null && "type" in block && block.type === "text"`. -/
def blockIsText : ContentBlock → Bool
  | .text _ => true
  | .typed _ => false
  | .untyped => false

/-- The `text` field read by `.map((block) => block.text)` (defined on the
blocks that survive the filter). -/
def blockText : ContentBlock → String
  | .text s => s
  | .typed _ => ""
  | .untyped => ""

/-- src/utils getMessageText: string content is returned unchanged; array
content is filtered to text blocks, mapped to their `text` fields and joined
with `""`; any other content shape yields `""`. -/
def getMessageText (m : Message) : String :=
  match m.content with
  | .str s => s
  | .blocks bs => String.join ((bs.filter blockIsText).map blockText)
  | .other => ""

/-! ## Conversation state and reducers (src/state/schemas.ts) -/

/-- The agent state: the `messages` channel inherited from MessagesAnnotation
plus `currentStep`, `error` and `iterations` (src/state/schemas.ts). -/
structure AgentState where
  messages : List Message
  currentStep : String
  error : Option String
  iterations : Nat
deriving DecidableEq, Repr

/-- The channel defaults of src/state/schemas.ts: empty history,
`currentStep = "idle"`, `error = null`, `iterations = 0`. -/
def defaultState : AgentState :=
  { messages := [], currentStep := "idle", error := none, iterations := 0 }

/-- Modelled from the spec: the reducer of the `messages` channel comes from
LangGraph MessagesAnnotation, library code that is not part of this
repository.  The spec fixes the accepted merge rule to append-only
concatenation: new messages are always added after all existing ones,
preserving emission order. -/
def messagesReducer (prev next : List Message) : List Message :=
  prev ++ next

/-- A node return value, i.e. the `Partial` of the state channels: an absent
channel leaves the state unchanged, a present one goes through the channel
reducer (`messages` concatenates, the scalar channels are last-write-wins,
src/state/schemas.ts). -/
structure AgentStateUpdate where
  messages : List Message := []
  currentStep : Option String := none
  error : Option (Option String) := none
  iterations : Option Nat := none
deriving DecidableEq, Repr

/-- Apply a node update to the state through the channel reducers of
src/state/schemas.ts. -/
def applyUpdate (st : AgentState) (u : AgentStateUpdate) : AgentState :=
  { messages := messagesReducer st.messages u.messages
    currentStep := match u.currentStep with | none => st.currentStep | some c => c
    error := match u.error with | none => st.error | some e => e
    iterations := match u.iterations with | none => st.iterations | some i => i }

/-! ## Capabilities (external interfaces, treated as black boxes) -/

/-- The Model Capability: `generate(messages) -> ai message`, may fail with a
provider error (the `llmWithTools.invoke` call of the agent node). -/
def LLM : Type := List Message → Except String Message

/-- One raw retrieval result of the Bedrock `RetrieveCommand` response:
`r.content?.text` may be absent. -/
structure RetrievalResult where
  contentText : Option String
deriving DecidableEq, Repr

/-- The Retrieval Capability: `search(query, numberOfResults) -> results`,
may fail with a transport/backend error (the `client.send(command)` call of
the retrieval tool). -/
def Search : Type := String → Nat → Except String (List RetrievalResult)

/-! ## Agent node (src/nodes, config/index.ts part 2, lines 247-266) -/

/-- The fixed system instruction of src/nodes.  The full prompt text is
abbreviated to its opening line; no claim depends on the text itself, only on
the same fixed system message being prepended fresh on every model call. -/
def SYSTEM_PROMPT : String :=
  "You are a Budget Book RAG Assistant — an expert at answering questions about government and organizational budget documents."

/-- `new SystemMessage(SYSTEM_PROMPT)`, rebuilt on every agent-node call. -/
def systemMessage : Message :=
  { role := .system, content := .str SYSTEM_PROMPT }

/-- src/nodes agentNode: invoke the model on the system message followed by
the full history; on success return the update appending the one response
message, setting `currentStep = "agent"` and `iterations = state.iterations + 1`.
There is no try/catch: a model failure propagates to the caller. -/
def agentNode (llm : LLM) (state : AgentState) : Except String AgentStateUpdate :=
  match llm (systemMessage :: state.messages) with
  | .error e => .error e
  | .ok response =>
      .ok { messages := [response]
            currentStep := some "agent"
            iterations := some (state.iterations + 1) }

/-! ## Router (src/nodes routeAgentResponse, lines 283-310) -/

/-- src/nodes routeAgentResponse: the iteration cap fires first and
unconditionally; otherwise route to `"tools"` exactly when the last message
carries a non-empty `tool_calls` array (the source casts the last message to
AIMessage without checking its role), else `"__end__"`; an absent last
message also routes to `"__end__"`. -/
def routeAgentResponse (state : AgentState) : String :=
  if 10 ≤ state.iterations then "__end__"
  else
    match state.messages.getLast? with
    | none => "__end__"
    | some lastMessage =>
        if lastMessage.tool_calls.length > 0 then "tools" else "__end__"

/-! ## Retrieval tool (src/tools/kb-retrieval.ts, lines 134-213) -/

/-- A ranked chunk of the success payload. -/
structure Chunk where
  rank : Nat
  text : String
deriving DecidableEq, Repr

/-- The structured result payload the tool serializes with `JSON.stringify`:
tagged `success`, `no_results` or `error` (src/tools/kb-retrieval.ts). -/
inductive KBPayload where
  | success (totalResults : Nat) (query : String) (chunks : List Chunk)
  | no_results (message : String) (query : String)
  | error (message : String) (query : String)
deriving DecidableEq, Repr

/-- The zod config default: `retrievalTopK` coerces the RETRIEVAL_TOP_K
environment value and defaults to 5 when it is absent
(src/config/index.ts line 32). -/
def configRetrievalTopK (envValue : Option Nat) : Nat :=
  envValue.getD 5

/-- Line 143 of the tool: `const numberOfResults = topK ?? config.retrievalTopK`. -/
def numberOfResults (retrievalTopK : Nat) (topK : Option Nat) : Nat :=
  topK.getD retrievalTopK

/-- Lines 160-162 of the tool: map each retrieval result to
`r.content?.text ?? ""` and keep only texts with `length > 0`. -/
def usableTexts (response : List RetrievalResult) : List String :=
  (response.map fun r => r.contentText.getD "").filter fun t => decide (0 < t.length)

/-- src/tools/kb-retrieval.ts kbRetrievalTool: resolve `numberOfResults`,
call the Retrieval Capability, and build the structured payload; a thrown
retrieval error is caught and converted into a `status: error` payload, never
rethrown.  `JSON.stringify` of the payload is `serializePayload` below. -/
def kbRetrievalTool (retrievalTopK : Nat) (search : Search)
    (query : String) (topK : Option Nat) : KBPayload :=
  match search query (numberOfResults retrievalTopK topK) with
  | .error err =>
      .error ("Failed to retrieve documents: " ++ err) query
  | .ok response =>
      if (usableTexts response).length = 0 then
        .no_results
          "No relevant results found in the knowledge base for this query. Try rephrasing."
          query
      else
        .success (usableTexts response).length query
          ((usableTexts response).enum.map fun p => { rank := p.1 + 1, text := p.2 })

/-- `JSON.stringify` of a chunk (inner string escaping elided; no claim
inspects the serialized text). -/
def serializeChunk (c : Chunk) : String :=
  "\x7b\"rank\":" ++ toString c.rank ++ ",\"text\":\"" ++ c.text ++ "\"\x7d"

/-- `JSON.stringify` of the tool payload (inner string escaping elided; no
claim inspects the serialized text). -/
def serializePayload : KBPayload → String
  | .success n q cs =>
      "\x7b\"status\":\"success\",\"totalResults\":" ++ toString n
        ++ ",\"query\":\"" ++ q ++ "\",\"chunks\":["
        ++ String.intercalate "," (cs.map serializeChunk) ++ "]\x7d"
  | .no_results m q =>
      "\x7b\"status\":\"no_results\",\"message\":\"" ++ m
        ++ "\",\"query\":\"" ++ q ++ "\"\x7d"
  | .error m q =>
      "\x7b\"status\":\"error\",\"message\":\"" ++ m
        ++ "\",\"query\":\"" ++ q ++ "\"\x7d"

/-! ## Tool step (prebuilt ToolNode, library code) -/

/-- Modelled from the spec: the prebuilt ToolNode executor
(`new ToolNode([...ragTools])`) is LangGraph library code not present in this
repository.  Per the spec, the Tool Step executes each pending tool call in
order and emits one `tool` message per call, carrying the originating call id
and the serialized tool result as content. -/
def toolResultMessage (retrievalTopK : Nat) (search : Search) (c : ToolCall) : Message :=
  { role := .tool
    content := .str (serializePayload (kbRetrievalTool retrievalTopK search c.query c.topK))
    tool_call_id := some c.id }

/-- The pending tool calls: the `tool_calls` of the last message (the router
only sends the loop to the tool node when that list is non-empty). -/
def pendingToolCalls (st : AgentState) : List ToolCall :=
  match st.messages.getLast? with
  | none => []
  | some m => m.tool_calls

/-- Modelled from the spec: the Tool Step result messages, one per pending
call, in call order. -/
def toolNodeMessages (retrievalTopK : Nat) (search : Search) (calls : List ToolCall) :
    List Message :=
  calls.map (toolResultMessage retrievalTopK search)

/-- Modelled from the spec: the Tool Step state update — the result messages
appended in call order and `currentStep = "tools"`. -/
def toolNodeUpdate (retrievalTopK : Nat) (search : Search) (st : AgentState) :
    AgentStateUpdate :=
  { messages := toolNodeMessages retrievalTopK search (pendingToolCalls st)
    currentStep := some "tools" }

/-! ## Graph and loop (src/agents/rag-agent.ts buildRagAgentGraph) -/

/-- Graph nodes: `__start__`, `agent`, `tools`, `__end__`. -/
inductive GNode where
  | start
  | agent
  | tools
  | endNode
deriving DecidableEq, Repr

/-- The conditional-edge mapping of buildRagAgentGraph:
`{ tools: "tools", __end__: "__end__" }`. -/
def routeTarget (r : String) : GNode :=
  if r = "tools" then .tools else .endNode

/-- The compiled graph run as a fuel-indexed step function.  Edges are those
of buildRagAgentGraph: `__start__ → agent`, `agent → route`, `tools → agent`
(unconditional).  A model failure aborts the run with the error; fuel
exhaustion is an error so that a returned `.ok` state is one the loop
actually reached `__end__` with. -/
def runFrom (llm : LLM) (search : Search) (retrievalTopK : Nat) :
    Nat → GNode → AgentState → Except String AgentState
  | 0, _, _ => .error "fuel exhausted"
  | fuel + 1, node, st =>
    match node with
    | .endNode => .ok st
    | .start => runFrom llm search retrievalTopK fuel .agent st
    | .agent =>
        match agentNode llm st with
        | .error e => .error e
        | .ok u =>
            let st1 := applyUpdate st u
            runFrom llm search retrievalTopK fuel (routeTarget (routeAgentResponse st1)) st1
    | .tools =>
        runFrom llm search retrievalTopK fuel .agent
          (applyUpdate st (toolNodeUpdate retrievalTopK search st))

/-- Modelled from the spec: LangGraph `agent.invoke({messages: [userMessage]},
threadConfig)` loads the latest checkpoint of the thread (the default state
for a fresh thread), applies the input through the channel reducers — i.e.
appends the new human message, carrying `iterations` over, not resetting it —
and resumes at `__start__`. -/
def seedState (checkpoint : AgentState) (query : String) : AgentState :=
  applyUpdate checkpoint { messages := [createHumanMessage query] }

/-- src/agents/rag-agent.ts invokeAgent: seed the thread state with the new
human message, run the graph to `__end__`, and return the text of the last
message of the final state. -/
def invokeAgent (llm : LLM) (search : Search) (retrievalTopK : Nat) (fuel : Nat)
    (checkpoint : AgentState) (query : String) : Except String String :=
  match runFrom llm search retrievalTopK fuel .start (seedState checkpoint query) with
  | .error e => .error e
  | .ok result =>
      match result.messages.getLast? with
      | none => .error "no messages"
      | some lastMessage => .ok (getMessageText lastMessage)

/-! ## HTTP chat handler validation (src/server.ts lines 33-43) -/

/-- The `message` field of the request body as the handler sees it: absent,
a string, or any non-string JS value. -/
inductive BodyMessage where
  | missing
  | string (s : String)
  | other
deriving DecidableEq, Repr

/-- Models JS `String.prototype.trim`: strip leading and trailing whitespace.
Defined over the character list so that concrete instances evaluate in the
kernel. -/
def trimJS (s : String) : String :=
  String.mk (((s.data.dropWhile Char.isWhitespace).reverse.dropWhile Char.isWhitespace).reverse)

/-- Outcome of the validation at the top of the chat route: either the 400
validation response, or the agent is invoked with the trimmed message. -/
inductive ChatOutcome where
  | validationError (error response : String)
  | invoked (userMessage : String)
deriving DecidableEq, Repr

/-- src/server.ts lines 33-45: `if (!message || typeof message !== "string"
|| !message.trim())` rejects with a 400 before `invokeAgent` is reached;
otherwise the agent is invoked with `message.trim()`.  An absent or
non-string `message` fails the first two tests (a falsy non-string also fails
the first); a string fails exactly when its trim is empty (the empty string
is falsy, whitespace trims to empty). -/
def chatHandler : BodyMessage → ChatOutcome
  | .missing =>
      .validationError "No message provided" "Please provide a message to process."
  | .other =>
      .validationError "No message provided" "Please provide a message to process."
  | .string s =>
      if trimJS s = "" then
        .validationError "No message provided" "Please provide a message to process."
      else
        .invoked (trimJS s)

/-! ## Support definitions for concrete runs -/

/-- The in-order concatenation of the `text` fields of blocks tagged
`"text"`, skipping every other block — the specification-level description of
array-content extraction, stated independently of the source's
filter/map/join pipeline. -/
def textConcat : List ContentBlock → String
  | [] => ""
  | .text s :: rest => s ++ textConcat rest
  | .typed _ :: rest => textConcat rest
  | .untyped :: rest => textConcat rest

/-- A model that always answers with a plain text message and no tool calls. -/
def llmPlain : LLM := fun _ => .ok (createAIMessage "done")

/-- A model that requests the retrieval tool on every turn (Scenario C). -/
def llmToolCaller : LLM := fun _ =>
  .ok { role := .ai
        content := .str ""
        tool_calls := [{ id := "call-1", name := "knowledge_base_retrieval",
                         query := "budget", topK := none }] }

/-- A model whose call rejects with a provider error. -/
def llmFailing : LLM := fun _ => .error "provider unavailable"

/-- A retrieval capability returning three usable chunks. -/
def searchOk : Search := fun _ _ =>
  .ok [{ contentText := some "chunk-a" }, { contentText := some "chunk-b" },
       { contentText := some "chunk-c" }]

/-- A retrieval capability that throws a transport error. -/
def searchFailing : Search := fun _ _ => .error "transport error"

/-- A retrieval capability whose first returned result has empty text and
whose second is usable. -/
def searchEmptyFirst : Search := fun _ _ =>
  .ok [{ contentText := some "" }, { contentText := some "x" }]

/-- The `iterations` of a finished run, `none` when the run failed. -/
def iterationsOf : Except String AgentState → Option Nat
  | .ok st => some st.iterations
  | .error _ => none

/-- A first run on a fresh thread driven by a model that requests tools on
every turn: it terminates by the iteration cap and its checkpoint carries
`iterations = 10`. -/
def c1FirstRun : Except String AgentState :=
  runFrom llmToolCaller searchOk 5 40 .start (seedState defaultState "budget question")

/-- Resuming the capped thread above with one new human message: the loop
re-enters at `__start__ → agent`, the agent step runs once before the router
can fire, and `iterations` reaches 11. -/
def c1Resumed : Except String AgentState :=
  match c1FirstRun with
  | .error e => .error e
  | .ok checkpoint => runFrom llmPlain searchOk 5 40 .start (seedState checkpoint "follow up")

/-- The final state of a one-step run used to instantiate the amended loop
bound. -/
def c1WitnessState : AgentState :=
  { messages := [createHumanMessage "hi", createAIMessage "done"]
    currentStep := "agent"
    error := none
    iterations := 1 }

/-- A state at the iteration cap whose last message still requests a tool
call. -/
def cappedToolCallState : AgentState :=
  { messages := [{ role := .ai
                   content := .str ""
                   tool_calls := [{ id := "call-1", name := "knowledge_base_retrieval",
                                    query := "budget", topK := none }] }]
    currentStep := "agent"
    error := none
    iterations := 10 }

/-! ## Helper lemmas -/

/-- The last element of a list is a member of it. -/
theorem memGetLast? {α} (l : List α) (a : α) (h : l.getLast? = some a) : a ∈ l := by
  induction l with
  | nil => simp at h
  | cons x xs ih =>
    cases xs with
    | nil => simp at h; simp [h]
    | cons y ys =>
      rw [List.getLast?_cons_cons] at h
      exact List.mem_cons_of_mem x (ih h)

/-- Folding string append distributes over the initial accumulator. -/
theorem foldlAppendInit (l : List String) (a b : String) :
    l.foldl (fun r s => r ++ s) (a ++ b) = a ++ l.foldl (fun r s => r ++ s) b := by
  induction l generalizing b with
  | nil => rfl
  | cons t r ih => simp only [List.foldl_cons, String.append_assoc, ih]

/-- `String.join` unfolds over cons. -/
theorem joinCons (s : String) (l : List String) :
    String.join (s :: l) = s ++ String.join l := by
  have h := foldlAppendInit l s ""
  simpa [String.join] using h

/-- The source's filter/map/join pipeline over content blocks computes the
in-order concatenation of the text-block texts. -/
theorem joinFilteredBlocks (bs : List ContentBlock) :
    String.join ((bs.filter blockIsText).map blockText) = textConcat bs := by
  induction bs with
  | nil => rfl
  | cons b rest ih =>
    cases b with
    | text s => simp [blockIsText, blockText, textConcat, joinCons, ih]
    | typed ty => simpa [blockIsText, textConcat] using ih
    | untyped => simpa [blockIsText, textConcat] using ih

/-! ## Claim theorems -/

/-- C10: the text-extraction function is total over all content shapes: a
string content is returned unchanged; an array content yields the in-order
concatenation of the `text` fields of blocks tagged `"text"`, skipping every
other block; any other content shape yields the empty string.  Totality is by
construction: `getMessageText` is a total function into `String`, so `invoke`
always extracts a defined string from the final message. -/
theorem getMessageText_total_over_shapes :
    (∀ (r : Role) (tc : List ToolCall) (tid : Option String) (s : String),
      getMessageText { role := r, content := .str s, tool_calls := tc, tool_call_id := tid } = s) ∧
    (∀ (r : Role) (tc : List ToolCall) (tid : Option String) (bs : List ContentBlock),
      getMessageText { role := r, content := .blocks bs, tool_calls := tc, tool_call_id := tid } =
        textConcat bs) ∧
    (∀ (r : Role) (tc : List ToolCall) (tid : Option String),
      getMessageText { role := r, content := .other, tool_calls := tc, tool_call_id := tid } = "") := by
  refine ⟨fun r tc tid s => rfl, fun r tc tid bs => ?_, fun r tc tid => rfl⟩
  simpa [getMessageText] using joinFilteredBlocks bs

/-- C4: the messages reducer merges by append-only concatenation — the
existing history is preserved unchanged as a prefix (no duplication, removal
or reordering), and the new messages follow it in emission order. -/
theorem messagesReducer_append_only (prev next : List Message) :
    messagesReducer prev next = prev ++ next ∧
    (messagesReducer prev next).take prev.length = prev ∧
    (messagesReducer prev next).drop prev.length = next ∧
    (messagesReducer prev next).length = prev.length + next.length :=
  ⟨rfl, List.take_left prev next, List.drop_left prev next, by simp [messagesReducer]⟩

/-- C5: a Model Capability failure inside an Agent Step propagates unchanged —
the agent node has no catch, so it returns the very same error, produces no
state update (no `ai` message is appended, the error is not converted into a
message), and the loop aborts at the agent node with that error. -/
theorem agentNode_failure_propagates (llm : LLM) (st : AgentState) (e : String)
    (h : llm (systemMessage :: st.messages) = .error e) :
    agentNode llm st = Except.error e ∧
    ∀ (search : Search) (k fuel : Nat),
      runFrom llm search k (fuel + 1) .agent st = Except.error e := by
  have ha : agentNode llm st = Except.error e := by simp [agentNode, h]
  exact ⟨ha, fun search k fuel => by simp [runFrom, ha]⟩

/-- Witness for C5 at a concrete failing model. -/
theorem agentNode_failure_propagates_witness :
    agentNode llmFailing defaultState = Except.error "provider unavailable" :=
  (agentNode_failure_propagates llmFailing defaultState "provider unavailable" rfl).1

/-- C6: the chat route rejects an empty (or all-whitespace), absent or
non-string `message` with the client-facing validation response before the
agent is reached, and the agent is only ever invoked with the trim of a
string whose trim is non-empty. -/
theorem chatHandler_validates_before_invoke :
    (∀ s : String, trimJS s = "" →
      chatHandler (.string s) =
        .validationError "No message provided" "Please provide a message to process.") ∧
    chatHandler .other =
      .validationError "No message provided" "Please provide a message to process." ∧
    chatHandler .missing =
      .validationError "No message provided" "Please provide a message to process." ∧
    (∀ (b : BodyMessage) (r : String), chatHandler b = .invoked r →
      ∃ t, b = .string t ∧ trimJS t ≠ "" ∧ r = trimJS t) := by
  refine ⟨fun s hs => by simp [chatHandler, hs], rfl, rfl, fun b r h => ?_⟩
  cases b with
  | missing => exact absurd h (by simp [chatHandler])
  | other => exact absurd h (by simp [chatHandler])
  | string t =>
    by_cases ht : trimJS t = ""
    · rw [chatHandler, if_pos ht] at h
      exact absurd h (by simp)
    · rw [chatHandler, if_neg ht] at h
      exact ⟨t, rfl, ht, by injection h with h2; exact h2.symm⟩

/-- Witness for C6 at the empty-string query. -/
theorem chatHandler_validates_before_invoke_witness :
    chatHandler (.string "") =
      .validationError "No message provided" "Please provide a message to process." :=
  chatHandler_validates_before_invoke.1 "" (by decide)

/-- C8: when a tool call omits `topK`, the retrieval is invoked with the
configured `retrievalTopK`, which is 5 under the schema default (no
RETRIEVAL_TOP_K override); when `topK` is present the supplied value is used. -/
theorem numberOfResults_default_config :
    numberOfResults (configRetrievalTopK none) none = 5 ∧
    configRetrievalTopK none = 5 ∧
    (∀ r k : Nat, numberOfResults r (some k) = k) ∧
    (∀ r : Nat, numberOfResults r none = r) :=
  ⟨rfl, rfl, fun _ _ => rfl, fun _ => rfl⟩

/-- C9: on a successful model call, the agent node invoked the model on the
full history prefixed by the fresh fixed system instruction (it depends on
the model only through its value at that argument), and its update appends
exactly the one returned message — so the persisted history becomes the old
history plus that message, with the system instruction never persisted — and
sets `currentStep = "agent"` and `iterations = iterations + 1`. -/
theorem agentNode_success_update (llm : LLM) (st : AgentState) (response : Message)
    (h : llm (systemMessage :: st.messages) = .ok response) :
    agentNode llm st = .ok { messages := [response], currentStep := some "agent",
                             error := none, iterations := some (st.iterations + 1) } ∧
    (applyUpdate st { messages := [response], currentStep := some "agent",
                      error := none, iterations := some (st.iterations + 1) }).messages =
      st.messages ++ [response] ∧
    (applyUpdate st { messages := [response], currentStep := some "agent",
                      error := none, iterations := some (st.iterations + 1) }).currentStep =
      "agent" ∧
    (applyUpdate st { messages := [response], currentStep := some "agent",
                      error := none, iterations := some (st.iterations + 1) }).iterations =
      st.iterations + 1 ∧
    (∀ llm2 : LLM, llm2 (systemMessage :: st.messages) = llm (systemMessage :: st.messages) →
      agentNode llm2 st = agentNode llm st) := by
  refine ⟨by simp [agentNode, h], rfl, rfl, rfl, fun llm2 h2 => ?_⟩
  unfold agentNode
  rw [h2]

/-- Witness for C9 at a concrete model answering with a plain message. -/
theorem agentNode_success_update_witness :
    agentNode llmPlain defaultState =
      .ok { messages := [createAIMessage "done"], currentStep := some "agent",
            error := none, iterations := some (defaultState.iterations + 1) } :=
  (agentNode_success_update llmPlain defaultState (createAIMessage "done") rfl).1

/-- The router only ever answers `"tools"` or `"__end__"`. -/
theorem routeAgentResponse_cases (st : AgentState) :
    routeAgentResponse st = "tools" ∨ routeAgentResponse st = "__end__" := by
  unfold routeAgentResponse
  split
  · exact Or.inr rfl
  · cases st.messages.getLast? with
    | none => exact Or.inr rfl
    | some m =>
      by_cases h : m.tool_calls.length > 0
      · exact Or.inl (by simp only [if_pos h])
      · exact Or.inr (by simp only [if_neg h])

/-- C2: the iteration cap has strict priority — at `iterations ≥ 10` the
router returns `"__end__"` even when the last message carries pending tool
calls; below the cap it returns `"tools"` exactly when the last message is an
`ai` message with a non-empty tool-call list (well-formedness: in the JS data
model only `ai` messages carry a `tool_calls` array), and `"__end__"` in
every other case. -/
theorem router_cap_priority (st : AgentState)
    (wf : ∀ m ∈ st.messages, m.tool_calls ≠ [] → m.role = .ai) :
    (10 ≤ st.iterations → routeAgentResponse st = "__end__") ∧
    (st.iterations < 10 →
      (routeAgentResponse st = "tools" ↔
        ∃ lastMessage, st.messages.getLast? = some lastMessage ∧
          lastMessage.role = .ai ∧ lastMessage.tool_calls ≠ [])) ∧
    (routeAgentResponse st ≠ "tools" → routeAgentResponse st = "__end__") := by
  refine ⟨fun h => by unfold routeAgentResponse; rw [if_pos h], fun hlt => ?_, fun hne => ?_⟩
  · have hc : ¬ 10 ≤ st.iterations := by omega
    constructor
    · intro htools
      unfold routeAgentResponse at htools
      rw [if_neg hc] at htools
      cases hL : st.messages.getLast? with
      | none => rw [hL] at htools; exact absurd htools (by decide)
      | some lastMessage =>
        rw [hL] at htools
        have htools2 : (if lastMessage.tool_calls.length > 0 then "tools" else "__end__") =
            "tools" := htools
        by_cases ht : lastMessage.tool_calls.length > 0
        · have hnil : lastMessage.tool_calls ≠ [] := by
            intro hn; rw [hn] at ht; simp at ht
          exact ⟨lastMessage, rfl, wf lastMessage (memGetLast? _ _ hL) hnil, hnil⟩
        · rw [if_neg ht] at htools2; exact absurd htools2 (by decide)
    · rintro ⟨lastMessage, hL, _, hnil⟩
      unfold routeAgentResponse
      rw [if_neg hc, hL]
      show (if lastMessage.tool_calls.length > 0 then "tools" else "__end__") = "tools"
      rw [if_pos (List.length_pos.mpr hnil)]
  · rcases routeAgentResponse_cases st with h | h
    · exact absurd h hne
    · exact h

/-- Witness for C2: a state at the cap whose last `ai` message still requests
a tool call is routed to `"__end__"`. -/
theorem router_cap_priority_witness :
    routeAgentResponse cappedToolCallState = "__end__" :=
  (router_cap_priority cappedToolCallState (by decide)).1 (by decide)

/-- C3: the Tool Step is total — it emits exactly one tool-result message per
pending call, in call order, each carrying the originating call id; a
retrieval failure is converted into a `status: error` payload with a
non-empty message (never rethrown, so the step itself cannot fail); and the
graph edge after the tool node returns unconditionally to the agent node, so
the loop proceeds to a further Agent Step. -/
theorem toolStep_contains_retrieval_errors (k : Nat) (search : Search) (calls : List ToolCall) :
    ((toolNodeMessages k search calls).map (fun m => m.tool_call_id) =
      calls.map (fun c => some c.id)) ∧
    (∀ c ∈ calls, ∀ e : String,
      search c.query (numberOfResults k c.topK) = .error e →
      kbRetrievalTool k search c.query c.topK =
        .error ("Failed to retrieve documents: " ++ e) c.query ∧
      0 < ("Failed to retrieve documents: " ++ e).length ∧
      toolResultMessage k search c =
        { role := .tool
          content := .str (serializePayload
            (.error ("Failed to retrieve documents: " ++ e) c.query))
          tool_calls := []
          tool_call_id := some c.id }) ∧
    (∀ (llm : LLM) (st : AgentState) (fuel : Nat),
      runFrom llm search k (fuel + 1) .tools st =
        runFrom llm search k fuel .agent (applyUpdate st (toolNodeUpdate k search st))) := by
  refine ⟨?_, fun c hc e he => ?_, fun llm st fuel => rfl⟩
  · simp [toolNodeMessages, List.map_map, Function.comp, toolResultMessage]
  · have hk : kbRetrievalTool k search c.query c.topK =
        .error ("Failed to retrieve documents: " ++ e) c.query := by
      unfold kbRetrievalTool
      rw [he]
    refine ⟨hk, ?_, ?_⟩
    · rw [String.length_append]
      have hpos : 0 < "Failed to retrieve documents: ".length := by decide
      omega
    · unfold toolResultMessage
      rw [hk]

/-- Witness for C3 at a concrete failing retrieval. -/
theorem toolStep_contains_retrieval_errors_witness :
    kbRetrievalTool 5 searchFailing "q" none =
      .error ("Failed to retrieve documents: " ++ "transport error") "q" :=
  ((toolStep_contains_retrieval_errors 5 searchFailing
      [{ id := "call-1", name := "knowledge_base_retrieval", query := "q", topK := none }]).2.1
    { id := "call-1", name := "knowledge_base_retrieval", query := "q", topK := none }
    (List.mem_singleton.mpr rfl) "transport error" rfl).1

/-- Ranks of an enumeration starting at an offset. -/
theorem enumFrom_ranks {α} (l : List α) (n : Nat) :
    (List.enumFrom n l).map (fun p => p.1 + 1) = List.range' (n + 1) l.length := by
  induction l generalizing n with
  | nil => simp
  | cons x xs ih => simp [List.range'_succ, ih]

/-- Ranks of an enumeration from zero are `1..n`. -/
theorem enum_ranks {α} (l : List α) :
    (l.enum.map fun p => p.1 + 1) = List.range' 1 l.length :=
  enumFrom_ranks l 0

/-- C7 (amended): when the retrieval succeeds, the payload is tagged
`success` with ranks exactly `1..n` where the i-th chunk holds the i-th
usable (non-empty-text) chunk in retrieval order, and `no_results` when no
usable chunk was returned. -/
theorem kbRetrieval_success_ranked (k : Nat) (search : Search) (q : String)
    (tK : Option Nat) (response : List RetrievalResult)
    (h : search q (numberOfResults k tK) = .ok response) :
    (0 < (usableTexts response).length →
      ∃ cs : List Chunk,
        kbRetrievalTool k search q tK = .success (usableTexts response).length q cs ∧
        cs.map Chunk.rank = List.range' 1 (usableTexts response).length ∧
        cs.map Chunk.text = usableTexts response) ∧
    ((usableTexts response).length = 0 →
      kbRetrievalTool k search q tK =
        .no_results
          "No relevant results found in the knowledge base for this query. Try rephrasing."
          q) := by
  have hmain : kbRetrievalTool k search q tK =
      (if (usableTexts response).length = 0 then
        KBPayload.no_results
          "No relevant results found in the knowledge base for this query. Try rephrasing." q
      else
        KBPayload.success (usableTexts response).length q
          ((usableTexts response).enum.map fun p => { rank := p.1 + 1, text := p.2 })) := by
    unfold kbRetrievalTool
    rw [h]
  constructor
  · intro hpos
    refine ⟨(usableTexts response).enum.map (fun p => { rank := p.1 + 1, text := p.2 }),
      ?_, ?_, ?_⟩
    · rw [hmain, if_neg (by omega)]
    · rw [List.map_map]
      exact enum_ranks (usableTexts response)
    · rw [List.map_map]
      exact List.enum_map_snd (usableTexts response)
  · intro h0
    rw [hmain, if_pos h0]

/-- Witness for C7 (amended) at a retrieval returning three usable chunks. -/
theorem kbRetrieval_success_ranked_witness :
    ∃ cs : List Chunk,
      kbRetrievalTool 5 searchOk "budget" none =
        .success (usableTexts [{ contentText := some "chunk-a" },
          { contentText := some "chunk-b" }, { contentText := some "chunk-c" }]).length
          "budget" cs ∧
      cs.map Chunk.rank = List.range' 1 (usableTexts [{ contentText := some "chunk-a" },
        { contentText := some "chunk-b" }, { contentText := some "chunk-c" }]).length ∧
      cs.map Chunk.text = usableTexts [{ contentText := some "chunk-a" },
        { contentText := some "chunk-b" }, { contentText := some "chunk-c" }] :=
  (kbRetrieval_success_ranked 5 searchOk "budget" none
    [{ contentText := some "chunk-a" }, { contentText := some "chunk-b" },
     { contentText := some "chunk-c" }] rfl).1 (by decide)

/-- Counterexample to C7 as stated: a retrieval whose first returned chunk
has empty text.  The payload drops the empty chunk, so its rank-1 chunk holds
`"x"`, the second returned chunk, not the first returned chunk (whose text is
`""`): rank i does not hold the i-th returned chunk once unusable chunks are
filtered out. -/
theorem kbRetrieval_rank_counterexample :
    searchEmptyFirst "q" (numberOfResults 5 none) =
      .ok [{ contentText := some "" }, { contentText := some "x" }] ∧
    kbRetrievalTool 5 searchEmptyFirst "q" none =
      .success 1 "q" [{ rank := 1, text := "x" }] ∧
    "x" ≠ "" :=
  ⟨rfl, by decide, by decide⟩

/-- The router answers `"tools"` only strictly below the iteration cap. -/
theorem routeTools_iterations_lt (st : AgentState)
    (h : routeAgentResponse st = "tools") : st.iterations < 10 := by
  by_contra hge
  rw [Nat.not_lt] at hge
  unfold routeAgentResponse at h
  rw [if_pos hge] at h
  exact absurd h (by decide)

/-- A run already at `__end__` returns its state unchanged. -/
theorem runFrom_endNode (llm : LLM) (search : Search) (k fuel : Nat) (st st' : AgentState)
    (h : runFrom llm search k fuel .endNode st = .ok st') : st' = st := by
  cases fuel with
  | zero => simp [runFrom] at h
  | succ fuel2 =>
    simp only [runFrom] at h
    injection h with h2
    exact h2.symm

/-- A successful agent step increments `iterations` by exactly one. -/
theorem agentNode_ok_iterations (llm : LLM) (st : AgentState) (u : AgentStateUpdate)
    (h : agentNode llm st = .ok u) :
    (applyUpdate st u).iterations = st.iterations + 1 := by
  unfold agentNode at h
  cases hl : llm (systemMessage :: st.messages) with
  | error e =>
    rw [hl] at h
    have h2 : (Except.error e : Except String AgentStateUpdate) = .ok u := h
    cases h2
  | ok resp =>
    rw [hl] at h
    have h2 : Except.ok (⟨[resp], some "agent", none,
        some (st.iterations + 1)⟩ : AgentStateUpdate) = .ok u := h
    injection h2 with h3
    rw [← h3]
    rfl

/-- Loop invariant: any state the graph hands back after reaching `__end__`
has `iterations` bounded by `max (start + 1) 10` — the one unconditional
agent step past the cap, or the cap itself. -/
theorem runFrom_iterations_le (llm : LLM) (search : Search) (k : Nat) :
    ∀ (fuel : Nat) (node : GNode) (st st' : AgentState),
      runFrom llm search k fuel node st = .ok st' →
      st'.iterations ≤ max (st.iterations + 1) 10 := by
  intro fuel
  induction fuel with
  | zero => intro node st st' h; simp [runFrom] at h
  | succ fuel ih =>
    intro node st st' h
    cases node with
    | endNode =>
      have heq := runFrom_endNode llm search k (fuel + 1) st st' h
      rw [heq]
      exact le_trans (Nat.le_succ _) (Nat.le_max_left _ _)
    | start =>
      simp only [runFrom] at h
      exact ih .agent st st' h
    | tools =>
      simp only [runFrom] at h
      have h2 := ih .agent (applyUpdate st (toolNodeUpdate k search st)) st' h
      have hiter : (applyUpdate st (toolNodeUpdate k search st)).iterations =
          st.iterations := rfl
      rw [hiter] at h2
      exact h2
    | agent =>
      simp only [runFrom] at h
      cases ha : agentNode llm st with
      | error e =>
        rw [ha] at h
        have h2 : (Except.error e : Except String AgentState) = .ok st' := h
        cases h2
      | ok u =>
        rw [ha] at h
        have h2 : runFrom llm search k fuel
            (routeTarget (routeAgentResponse (applyUpdate st u)))
            (applyUpdate st u) = .ok st' := h
        have hit : (applyUpdate st u).iterations = st.iterations + 1 :=
          agentNode_ok_iterations llm st u ha
        by_cases hr : routeAgentResponse (applyUpdate st u) = "tools"
        · have hlt := routeTools_iterations_lt _ hr
          rw [hit] at hlt
          rw [hr] at h2
          have h3 := ih .tools (applyUpdate st u) st' h2
          rw [hit] at h3
          have hmax : max (st.iterations + 1 + 1) 10 = 10 := Nat.max_eq_right (by omega)
          rw [hmax] at h3
          exact le_trans h3 (Nat.le_max_right _ _)
        · have htgt : routeTarget (routeAgentResponse (applyUpdate st u)) =
              GNode.endNode := by
            unfold routeTarget
            rw [if_neg hr]
          rw [htgt] at h2
          have heq := runFrom_endNode llm search k fuel (applyUpdate st u) st' h2
          rw [heq, hit]
          exact Nat.le_max_left _ _

/-- C1 (amended): for every completed run of `invoke`, the final
`iterations` is at most `max (checkpoint iterations + 1) 10` — in particular
at most 10 for a fresh thread or any resumed checkpoint with
`iterations ≤ 9`; a resumed checkpoint already at the cap exceeds 10 by
exactly the one unconditional agent step. -/
theorem invoke_iterations_bounded (llm : LLM) (search : Search) (k fuel : Nat)
    (checkpoint : AgentState) (q : String) (finalState : AgentState)
    (h : runFrom llm search k fuel .start (seedState checkpoint q) = .ok finalState) :
    finalState.iterations ≤ max (checkpoint.iterations + 1) 10 := by
  have h2 := runFrom_iterations_le llm search k fuel .start (seedState checkpoint q)
    finalState h
  have hseed : (seedState checkpoint q).iterations = checkpoint.iterations := rfl
  rw [hseed] at h2
  exact h2

/-- Witness for C1 (amended) on a concrete one-step run from a fresh thread. -/
theorem invoke_iterations_bounded_witness :
    c1WitnessState.iterations ≤ max (defaultState.iterations + 1) 10 :=
  invoke_iterations_bounded llmPlain searchOk 5 20 defaultState "hi" c1WitnessState rfl

/-- Counterexample to C1 as stated: a fresh thread driven by a model that
requests tools every turn checkpoints at `iterations = 10` (Scenario C);
resuming that same thread with one more message runs the unconditional
`__start__ → agent` step before the router can fire, so the resumed run
reaches `__end__` with `iterations = 11 > 10`. -/
theorem invoke_iterations_counterexample :
    iterationsOf c1FirstRun = some 10 ∧
    iterationsOf c1Resumed = some 11 ∧
    ¬ (11 ≤ 10) :=
  ⟨rfl, rfl, by decide⟩

end RagAgent
